import Mathlib

/-!
# SulvionPiCord — verification of the spec against the code

Shallow embedding of the SulvionPiCord repository: the example fishing-bot
application (`src/examples/example1.py`) and, where the library core itself
(dispatcher, `Database`) is not part of the source tree, models built from
the specification (each such definition carries a doc comment starting
`Modelled from the spec:`).

The database state is embedded as explicit lists of rows; each SQL statement
issued by the example code becomes one total function on that state (a single
SQL statement is one atomic state transition, matching the spec's atomicity
model for single-statement updates).
-/

namespace SPC

/-- One entry of `FISH_TYPES` (example1.py lines 12–18): a fish species with
its display name, coin value, catch chance and emoji. -/
structure FishType where
  name : String
  value : Int
  chance : Int
  emoji : String
deriving Repr, DecidableEq

/-- `FISH_TYPES` from example1.py lines 12–18. -/
def FISH_TYPES : List FishType := [
  ⟨"Old Boot", 0, 30, "👢"⟩,
  ⟨"Tiny Minnow", 5, 40, "🐟"⟩,
  ⟨"Golden Carp", 50, 20, "🐠"⟩,
  ⟨"Legendary Shark", 500, 5, "🦈"⟩,
  ⟨"Kraken", 2000, 1, "🐙"⟩]

/-- A row of the `users` table created in `on_ready`
(`user_id INTEGER PRIMARY KEY, coins INTEGER DEFAULT 0, fishes_caught INTEGER DEFAULT 0`). -/
structure UserRow where
  user_id : Int
  coins : Int
  fishes_caught : Int
deriving Repr, DecidableEq

/-- A row of the `inventory` table created in `on_ready`
(`user_id INTEGER, fish_name TEXT, count INTEGER, PRIMARY KEY (user_id, fish_name)`). -/
structure InvRow where
  user_id : Int
  fish_name : String
  count : Int
deriving Repr, DecidableEq

/-- The database state of the fishing bot: the two tables set up in `on_ready`. -/
structure DB where
  users : List UserRow
  inventory : List InvRow
deriving Repr, DecidableEq

/-- The slice of `spc.Context` the example handlers read: `ctx.sender.id` and
`ctx.custom_id` (the latter present only for button events). The database
handle is passed separately as explicit state. -/
structure Ctx where
  senderId : Int
  custom_id : Option String
deriving Repr, DecidableEq

/-- One `ctx.reply(...)` call: its content string, the `hidden` flag and the
`delete_after` delay, as passed by the example code. -/
structure Reply where
  content : String
  hidden : Bool
  delete_after : Option Nat
deriving Repr, DecidableEq

/-- Failures of the underlying platform SDK (spec §7), e.g. deleting an
already-deleted message. -/
inductive PlatformError where
  | notFound
deriving Repr, DecidableEq

/-- An exception escaping application handler code (spec §7). The example
handlers can only fail by unpacking a colon-free custom_id
(`_, fish_name = ctx.custom_id.split(":", 1)` raises ValueError). -/
inductive HandlerError where
  | valueError
deriving Repr, DecidableEq

/-- Failures surfaced by `Database` methods (spec §7). -/
inductive StorageError where
  | constraintViolation
  | connectionLost
deriving Repr, DecidableEq

/-- `SELECT * FROM users WHERE user_id = ?` with `one=True`: the first row of
the users table whose `user_id` matches, `none` when no row matches. -/
def getUserRow (db : DB) (uid : Int) : Option UserRow :=
  db.users.find? (fun v => v.user_id == uid)

/-- `get_user` (example1.py lines 51–60): look the sender up in `users`;
when absent, `INSERT INTO users (user_id, coins, fishes_caught) VALUES (?, 0, 0)`
and return the fresh zeroed record. Returns the possibly-extended state and
the user's record. -/
def get_user (db : DB) (uid : Int) : DB × UserRow :=
  match getUserRow db uid with
  | some u => (db, u)
  | none => ({ db with users := db.users ++ [⟨uid, 0, 0⟩] }, ⟨uid, 0, 0⟩)

/-- `add_coins` (example1.py lines 62–68):
`UPDATE users SET coins = coins + ? WHERE user_id = ?`. -/
def add_coins (db : DB) (amount : Int) (uid : Int) : DB :=
  { db with users := db.users.map (fun v =>
      if v.user_id == uid then { v with coins := v.coins + amount } else v) }

/-- `remove_coins` (example1.py lines 70–75):
`UPDATE users SET coins = coins - ? WHERE user_id = ?`. -/
def remove_coins (db : DB) (amount : Int) (uid : Int) : DB :=
  { db with users := db.users.map (fun v =>
      if v.user_id == uid then { v with coins := v.coins - amount } else v) }

/-- `increment_fish` (example1.py lines 77–82):
`UPDATE users SET fishes_caught = fishes_caught + 1 WHERE user_id = ?`. -/
def increment_fish (db : DB) (uid : Int) : DB :=
  { db with users := db.users.map (fun v =>
      if v.user_id == uid then { v with fishes_caught := v.fishes_caught + 1 } else v) }

/-- The loop body of `get_fish_value`: scan the fish list in order and return
the first matching entry's value, else 0. -/
def get_fish_value_aux : List FishType → String → Int
  | [], _ => 0
  | f :: rest, name => if f.name = name then f.value else get_fish_value_aux rest name

/-- `get_fish_value` (example1.py lines 98–104): the coin value of a fish by
its name, `0` when no `FISH_TYPES` entry has that name. -/
def get_fish_value (name : String) : Int :=
  get_fish_value_aux FISH_TYPES name

/-- Scan a character list for the first `':'`: `none` when there is none,
otherwise the characters before it and the characters after it. -/
def splitFirstAux : List Char → Option (List Char × List Char)
  | [] => none
  | c :: cs =>
    if c = ':' then some ([], cs)
    else
      match splitFirstAux cs with
      | none => none
      | some (a, b) => some (c :: a, b)

/-- Python's `s.split(":", 1)` as used by the button handlers: split on the
first colon only. `none` models the ValueError raised by
`_, fish_name = s.split(":", 1)` when `s` contains no colon. -/
def splitOnceColon (s : String) : Option (String × String) :=
  match splitFirstAux s.data with
  | none => none
  | some (a, b) => some (⟨a⟩, ⟨b⟩)

/-- The bare `try: await ctx.message.delete() except: pass` around message
deletion (example1.py lines 146–148 and 167–169): whatever the platform
delete call's outcome, the exception is swallowed and the handler continues. -/
def bestEffortDelete : Except PlatformError Unit → Except HandlerError Unit
  | .ok _ => .ok ()
  | .error _ => .ok ()

/-- `on_sell_one_btn` (example1.py lines 153–171). `deleteOutcome` is the
outcome of the platform's `ctx.message.delete()` call. Returns the final
database state and the replies sent, or the handler's escaping exception. -/
def on_sell_one_btn (ctx : Ctx) (db : DB) (deleteOutcome : Except PlatformError Unit) :
    Except HandlerError (DB × List Reply) :=
  match ctx.custom_id with
  | none => .ok (db, [])
  | some cid =>
    if cid = "" then .ok (db, [])
    else
      match splitOnceColon cid with
      | none => .error .valueError
      | some (_, fish_name) =>
        let val := get_fish_value fish_name
        let db1 := add_coins db val ctx.senderId
        let db2 := increment_fish db1 ctx.senderId
        let rep : Reply :=
          ⟨"💰 Sold **" ++ fish_name ++ "** for **" ++ toString val ++ "** coins!",
            true, some 3⟩
        match bestEffortDelete deleteOutcome with
        | .ok _ => .ok (db2, [rep])
        | .error e => .error e

/-- `transfer_coins` (example1.py lines 219–248): the `/transfer` slash
command. `tid`/`tname` are the target member's `id` and `name`. Returns the
final database state and the replies sent. -/
def transfer_coins (db : DB) (sid : Int) (tid : Int) (tname : String) (amount : Int) :
    DB × List Reply :=
  let p := get_user db sid
  let db0 := p.1
  let sender_data := p.2
  if sender_data.coins < amount then
    (db0, [⟨"Not enough coins! You only have " ++ toString sender_data.coins ++ ".",
      false, none⟩])
  else if amount ≤ 0 then
    (db0, [⟨"Invalid amount.", false, none⟩])
  else if tid == sid then
    (db0, [⟨"You cannot transfer to yourself.", false, none⟩])
  else
    let db1 := remove_coins db0 amount sid
    let db2 :=
      match getUserRow db1 tid with
      | some _ => db1
      | none => { db1 with users := db1.users ++ [⟨tid, 0, 0⟩] }
    let db3 := add_coins db2 amount tid
    (db3, [⟨"💸 Transferred **" ++ toString amount ++ "** coins to **" ++ tname ++ "**!",
      false, none⟩])

/-- `p` is a prefix of `s` as character lists (used to model the spec's
custom-id matching; written out explicitly so all facts about it are proved
here by induction). -/
def listIsPre : List Char → List Char → Bool
  | [], _ => true
  | _ :: _, [] => false
  | a :: as, b :: bs => a == b && listIsPre as bs

/-- Modelled from the spec: button registry matching (spec §4.3, item 3 — the
library's dispatcher is not part of `src/`). A registration key matches an
incoming custom_id when the custom_id is equal to the key or begins with the
key followed by `":"`. -/
def buttonMatches (key cid : String) : Bool :=
  cid == key || listIsPre (key.data ++ [':']) cid.data

/-- Modelled from the spec: among the matching registry entries, pick the one
with the longest key (spec §4.3: "the longest matching prefix wins"); the
earliest-registered entry wins a length tie. `none` on an empty list. -/
def pickLongest {α : Type} : List (String × α) → Option (String × α)
  | [] => none
  | e :: rest =>
    match pickLongest rest with
    | none => some e
    | some b => if e.1.length < b.1.length then some b else some e

/-- Modelled from the spec: resolution of a button/component interaction
against the registry (spec §4.3, item 3): keep the entries whose key matches
the custom_id, and take the longest matching key; `none` when nothing
matches. The library's dispatcher itself is not part of `src/`. -/
def resolveButton {α : Type} (registry : List (String × α)) (cid : String) :
    Option (String × α) :=
  pickLongest (registry.filter (fun e => buttonMatches e.1 cid))

/-- Modelled from the spec: dispatch of a button event over handlers acting
on a state `σ` (spec §4.4): on a registry miss the event is silently dropped
and the state is unchanged; on a hit the resolved handler runs on the
incoming custom_id. -/
def dispatchButton {σ : Type} (registry : List (String × (String → σ → σ)))
    (cid : String) (st : σ) : σ :=
  match resolveButton registry cid with
  | none => st
  | some e => e.2 cid st

/-- Modelled from the spec: the result of `Database.get` (spec §4.1 — the
`Database` component is not part of `src/`): a single row-or-absent-sentinel
when `one=True`, an ordered sequence of rows when `one=False`. -/
inductive GetResult (ρ : Type) where
  | single : Option ρ → GetResult ρ
  | many : List ρ → GetResult ρ
deriving Repr, DecidableEq

/-- Modelled from the spec: `Database.get(sql, params, one)` (spec §4.1 — the
`Database` component is not part of `src/`). The parameterized read is
embedded as a row predicate over a table's rows; with `one=True` the first
matching row is returned (`none` is the absent sentinel), otherwise the
ordered list of all matching rows. It never fails. -/
def dbGet {ρ : Type} (rows : List ρ) (query : ρ → Bool) (one : Bool) : GetResult ρ :=
  if one then .single (rows.find? query) else .many (rows.filter query)

/-- A table of the relational store: its name, its column schema (an ordered
mapping from column name to column-type/constraint string) and its rows. -/
structure SqlTable (ρ : Type) where
  name : String
  schema : List (String × String)
  rows : List ρ
deriving Repr, DecidableEq

/-- Modelled from the spec: `Database.create_table(name, columns)` (spec §4.1
— the `Database` component is not part of `src/`): creates the table if
absent, and is idempotent — it must not fail when the table already exists
with the same shape (`CREATE TABLE IF NOT EXISTS` semantics, as also used
verbatim by `on_ready` for the inventory table). -/
def create_table {ρ : Type} (db : List (SqlTable ρ)) (name : String)
    (columns : List (String × String)) : Except StorageError (List (SqlTable ρ)) :=
  if db.any (fun t => t.name == name) then .ok db
  else .ok (db ++ [⟨name, columns, []⟩])

/-! ## Helper lemmas -/

/-- A `WHERE user_id = ?` update leaves the first matching row's image under
the update function as the first matching row, provided the update function
preserves `user_id`. -/
theorem find?_map_update (l : List UserRow) (uid : Int) (g : UserRow → UserRow)
    (hg : ∀ v, (g v).user_id = v.user_id) (u : UserRow)
    (h : l.find? (fun v => v.user_id == uid) = some u) :
    (l.map (fun v => if v.user_id == uid then g v else v)).find?
      (fun v => v.user_id == uid) = some (g u) := by
  induction l with
  | nil => simp at h
  | cons a t ih =>
    by_cases ha : a.user_id = uid
    · have hpa : (a.user_id == uid) = true := by simp [ha]
      have hga : ((g a).user_id == uid) = true := by simp [hg, ha]
      simp only [List.find?, hpa] at h
      cases h
      simp only [List.map_cons, hpa, if_true, List.find?, hga]
    · have hpa : (a.user_id == uid) = false := by simp [ha]
      simp only [List.find?, hpa] at h
      simp only [List.map_cons, hpa, Bool.false_eq_true, if_false, List.find?]
      exact ih h

/-- `add_coins` on an existing row adds exactly `amount` to its `coins`. -/
theorem getUserRow_add_coins (db : DB) (uid amount : Int) (u : UserRow)
    (h : getUserRow db uid = some u) :
    getUserRow (add_coins db amount uid) uid = some { u with coins := u.coins + amount } :=
  find?_map_update db.users uid (fun v => { v with coins := v.coins + amount })
    (fun _ => rfl) u h

/-- `increment_fish` on an existing row adds exactly 1 to its `fishes_caught`. -/
theorem getUserRow_increment_fish (db : DB) (uid : Int) (u : UserRow)
    (h : getUserRow db uid = some u) :
    getUserRow (increment_fish db uid) uid
      = some { u with fishes_caught := u.fishes_caught + 1 } :=
  find?_map_update db.users uid (fun v => { v with fishes_caught := v.fishes_caught + 1 })
    (fun _ => rfl) u h

/-- A character-list prefix is no longer than the list it prefixes. -/
theorem listIsPre_length_le : ∀ p s : List Char, listIsPre p s = true → p.length ≤ s.length
  | [], _, _ => Nat.zero_le _
  | _ :: _, [], h => by simp [listIsPre] at h
  | a :: as, b :: bs, h => by
    simp only [listIsPre, Bool.and_eq_true] at h
    simpa using listIsPre_length_le as bs h.2

/-- Two prefixes of the same character list with equal lengths are equal. -/
theorem listIsPre_eq_of_length_eq :
    ∀ (s p q : List Char), listIsPre p s = true → listIsPre q s = true →
      p.length = q.length → p = q
  | _, [], [], _, _, _ => rfl
  | _, [], _ :: _, _, _, hl => by simp at hl
  | _, _ :: _, [], _, _, hl => by simp at hl
  | [], _ :: _, _, hp, _, _ => by simp [listIsPre] at hp
  | b :: bs, a :: as, c :: cs, hp, hq, hl => by
    simp only [listIsPre, Bool.and_eq_true, beq_iff_eq] at hp hq
    have := listIsPre_eq_of_length_eq bs as cs hp.2 hq.2 (by simpa using hl)
    rw [hp.1, hq.1, this]

/-- Two registered keys of equal length that both match the same custom_id
are the same key. -/
theorem buttonMatches_eq_of_length_eq (k1 k2 c : String)
    (h1 : buttonMatches k1 c = true) (h2 : buttonMatches k2 c = true)
    (hl : k1.length = k2.length) : k1 = k2 := by
  have hdl : k1.data.length = k2.data.length := hl
  simp only [buttonMatches, Bool.or_eq_true, beq_iff_eq] at h1 h2
  rcases h1 with h1 | h1 <;> rcases h2 with h2 | h2
  · rw [← h1, ← h2]
  · exfalso
    have := listIsPre_length_le _ _ h2
    subst h1
    simp only [List.length_append, List.length_cons, List.length_nil] at this
    omega
  · exfalso
    have := listIsPre_length_le _ _ h1
    subst h2
    simp only [List.length_append, List.length_cons, List.length_nil] at this
    omega
  · have heq : k1.data ++ [':'] = k2.data ++ [':'] :=
      listIsPre_eq_of_length_eq c.data _ _ h1 h2 (by simp [hdl])
    have hd : k1.data = k2.data := by
      have := congrArg (fun l => l.dropLast) heq
      simpa using this
    exact String.ext hd

/-- `pickLongest` returns `none` exactly on the empty list. -/
theorem pickLongest_eq_none_iff {α : Type} (l : List (String × α)) :
    pickLongest l = none ↔ l = [] := by
  cases l with
  | nil => simp [pickLongest]
  | cons a rest =>
    simp only [pickLongest]
    constructor
    · intro h
      cases hr : pickLongest rest <;> rw [hr] at h
      · simp at h
      · dsimp at h
        split at h <;> simp at h
    · intro h
      simp at h

/-- The entry `pickLongest` returns is an entry of the list. -/
theorem pickLongest_mem {α : Type} :
    ∀ (l : List (String × α)) (e : String × α), pickLongest l = some e → e ∈ l
  | [], e, h => by simp [pickLongest] at h
  | a :: rest, e, h => by
    simp only [pickLongest] at h
    cases hr : pickLongest rest <;> rw [hr] at h
    · cases h
      exact List.mem_cons_self a rest
    · dsimp at h
      split at h
      · cases h
        exact List.mem_cons_of_mem a (pickLongest_mem rest _ hr)
      · cases h
        exact List.mem_cons_self a rest

/-- Every entry's key is at most as long as the key of the entry
`pickLongest` returns. -/
theorem pickLongest_maxlen {α : Type} :
    ∀ (l : List (String × α)) (e e' : String × α), pickLongest l = some e →
      e' ∈ l → e'.1.length ≤ e.1.length
  | [], _, _, h, _ => by simp [pickLongest] at h
  | a :: rest, e, e', h, hmem => by
    simp only [pickLongest] at h
    cases hr : pickLongest rest <;> rw [hr] at h
    · cases h
      have : rest = [] := (pickLongest_eq_none_iff rest).1 hr
      subst this
      simp only [List.mem_singleton] at hmem
      subst hmem
      exact Nat.le_refl _
    · rename_i b
      dsimp at h
      rcases List.mem_cons.1 hmem with he' | he'
      · subst he'
        split at h <;> cases h
        · omega
        · exact Nat.le_refl _
      · have hb := pickLongest_maxlen rest b e' hr he'
        split at h <;> cases h
        · exact hb
        · omega

/-- In a list whose keys are distinct, two entries with the same key carry
the same value. -/
theorem key_nodup_eq {α : Type} :
    ∀ (l : List (String × α)), (l.map Prod.fst).Nodup →
      ∀ (k : String) (v v' : α), (k, v) ∈ l → (k, v') ∈ l → v = v'
  | [], _, _, _, _, h1, _ => by simp at h1
  | a :: t, hnd, k, v, v', h1, h2 => by
    simp only [List.map_cons, List.nodup_cons] at hnd
    rcases List.mem_cons.1 h1 with e1 | e1 <;> rcases List.mem_cons.1 h2 with e2 | e2
    · rw [← e1] at e2
      simp only [Prod.mk.injEq, true_and] at e2
      exact e2.symm
    · exfalso
      have hk : k ∈ t.map Prod.fst := by
        simp only [List.mem_map]
        exact ⟨(k, v'), e2, rfl⟩
      rw [← e1] at hnd
      exact hnd.1 hk
    · exfalso
      have hk : k ∈ t.map Prod.fst := by
        simp only [List.mem_map]
        exact ⟨(k, v), e1, rfl⟩
      rw [← e2] at hnd
      exact hnd.1 hk
    · exact key_nodup_eq t hnd.2 k v v' e1 e2

/-- `splitFirstAux` on a colon-free list followed by `':' :: l2` splits
exactly there. -/
theorem splitFirstAux_no_colon_append (l1 l2 : List Char)
    (h : ∀ ch ∈ l1, ch ≠ ':') :
    splitFirstAux (l1 ++ ':' :: l2) = some (l1, l2) := by
  induction l1 with
  | nil => simp [splitFirstAux]
  | cons a t ih =>
    have ha : a ≠ ':' := h a (List.mem_cons_self a t)
    have iht := ih (fun ch hch => h ch (List.mem_cons_of_mem a hch))
    have iht' : splitFirstAux (List.append t (':' :: l2)) = some (t, l2) := iht
    simp only [List.cons_append, splitFirstAux, if_neg ha, iht, iht']

/-- Splitting `"sell_one:" ++ name` on the first colon yields `"sell_one"`
and `name`, whatever `name` is. -/
theorem splitOnceColon_sell_one (name : String) :
    splitOnceColon ("sell_one:" ++ name) = some ("sell_one", name) := by
  have hdata : ("sell_one:" ++ name).data = "sell_one".data ++ ':' :: name.data := by
    rw [String.data_append]
    rfl
  rw [splitOnceColon, hdata,
    splitFirstAux_no_colon_append "sell_one".data name.data (by decide)]

/-- A fish name appearing in no `FISH_TYPES` entry is valued at 0. -/
theorem get_fish_value_unknown (name : String)
    (h : ∀ f ∈ FISH_TYPES, f.name ≠ name) : get_fish_value name = 0 := by
  have h1 := h ⟨"Old Boot", 0, 30, "👢"⟩ (by simp [FISH_TYPES])
  have h2 := h ⟨"Tiny Minnow", 5, 40, "🐟"⟩ (by simp [FISH_TYPES])
  have h3 := h ⟨"Golden Carp", 50, 20, "🐠"⟩ (by simp [FISH_TYPES])
  have h4 := h ⟨"Legendary Shark", 500, 5, "🦈"⟩ (by simp [FISH_TYPES])
  have h5 := h ⟨"Kraken", 2000, 1, "🐙"⟩ (by simp [FISH_TYPES])
  simp only [get_fish_value, FISH_TYPES, get_fish_value_aux] at *
  rw [if_neg h1, if_neg h2, if_neg h3, if_neg h4, if_neg h5]

/-- The bare `except: pass` swallows every outcome of the delete call. -/
theorem bestEffortDelete_eq (r : Except PlatformError Unit) :
    bestEffortDelete r = .ok () := by
  cases r <;> rfl

/-! ## Claims -/

/-- Claim C2: for every existing user row with counter value C, applying N
single-statement atomic `UPDATE users SET fishes_caught = fishes_caught + 1`
updates (each one atomic state transition, so any interleaving of N
concurrent increments is N sequential applications) leaves the counter at
exactly C + N — no increment is lost. -/
theorem claim_C2_increment_atomic (db : DB) (uid : Int) (u : UserRow) (n : ℕ)
    (h : getUserRow db uid = some u) :
    getUserRow ((fun d => increment_fish d uid)^[n] db) uid
      = some { u with fishes_caught := u.fishes_caught + n } := by
  obtain ⟨i, c, f⟩ := u
  induction n with
  | zero => simpa using h
  | succ m ih =>
    rw [Function.iterate_succ_apply']
    have step := getUserRow_increment_fish _ uid _ ih
    rw [step]
    simp only [Option.some.injEq, UserRow.mk.injEq, true_and]
    push_cast
    ring

/-- Claim C2 witness: three increments on a row with counter 2 end at 5. -/
theorem claim_C2_increment_atomic_witness :
    getUserRow ((fun d => increment_fish d 7)^[3] ⟨[⟨7, 10, 2⟩], []⟩) 7
      = some ⟨7, 10, 5⟩ := by
  exact claim_C2_increment_atomic ⟨[⟨7, 10, 2⟩], []⟩ 7 ⟨7, 10, 2⟩ 3 rfl

/-- Claim C3: for every read whose result set is empty, `Database.get` with
`one=True` returns the absent sentinel (it never fails by construction and
never returns a sequence), and with `one=False` it returns an empty ordered
sequence. -/
theorem claim_C3_get_empty {ρ : Type} (rows : List ρ) (query : ρ → Bool)
    (h : rows.filter query = []) :
    dbGet rows query true = .single none ∧ dbGet rows query false = .many [] := by
  have hnone : rows.find? query = none := by
    rw [List.find?_eq_none]
    intro x hx hq
    have hmem : x ∈ rows.filter query := List.mem_filter.2 ⟨hx, hq⟩
    rw [h] at hmem
    simp at hmem
  exact ⟨by simp [dbGet, hnone], by simp [dbGet, h]⟩

/-- Claim C3 witness: a query matching none of three rows. -/
theorem claim_C3_get_empty_witness :
    ([(1 : ℕ), 2, 3].filter (fun n => n == 9) = [])
    ∧ dbGet [(1 : ℕ), 2, 3] (fun n => n == 9) true = .single none
    ∧ dbGet [(1 : ℕ), 2, 3] (fun n => n == 9) false = .many [] := by
  refine ⟨by decide, ?_, ?_⟩
  · exact (claim_C3_get_empty [1, 2, 3] (fun n => n == 9) (by decide)).1
  · exact (claim_C3_get_empty [1, 2, 3] (fun n => n == 9) (by decide)).2

/-- Claim C6: for every incoming custom_id matching no registered prefix,
dispatch is a no-op — resolution yields nothing, no handler runs, and the
state is unchanged (and `dispatchButton` is total, so no error is raised). -/
theorem claim_C6_no_match_noop {σ : Type}
    (registry : List (String × (String → σ → σ))) (cid : String) (st : σ)
    (h : ∀ e ∈ registry, buttonMatches e.1 cid = false) :
    resolveButton registry cid = none ∧ dispatchButton registry cid st = st := by
  have hfil : registry.filter (fun e => buttonMatches e.1 cid) = [] := by
    rw [List.filter_eq_nil_iff]
    intro e he
    simp [h e he]
  have hres : resolveButton registry cid = none := by
    rw [resolveButton, hfil]
    rfl
  exact ⟨hres, by rw [dispatchButton, hres]⟩

/-- Claim C6 witness: custom_id `"fish"` matches neither registered key. -/
theorem claim_C6_no_match_noop_witness :
    resolveButton [("keep", fun (_ : String) (st : ℕ) => st + 1),
      ("sell_one", fun (_ : String) (st : ℕ) => st + 2)] "fish" = none
    ∧ dispatchButton [("keep", fun (_ : String) (st : ℕ) => st + 1),
      ("sell_one", fun (_ : String) (st : ℕ) => st + 2)] "fish" 5 = 5 := by
  exact claim_C6_no_match_noop _ "fish" 5 (by decide)

/-- Claim C7: `create_table` twice with the same name and identical column
schema raises no error (both calls return `.ok`), and the second call leaves
the table data — in particular every row of every table — untouched. -/
theorem claim_C7_create_table_idempotent {ρ : Type} (db : List (SqlTable ρ))
    (tname : String) (columns : List (String × String)) :
    ∃ db1, create_table db tname columns = .ok db1
      ∧ create_table db1 tname columns = .ok db1 := by
  by_cases h : db.any (fun t => t.name == tname) = true
  · exact ⟨db, by simp [create_table, h], by simp [create_table, h]⟩
  · refine ⟨db ++ [⟨tname, columns, []⟩], by simp [create_table, h], ?_⟩
    have hany : (db ++ [(⟨tname, columns, []⟩ : SqlTable ρ)]).any
        (fun t => t.name == tname) = true := by
      simp [List.any_append]
    simp [create_table, hany]

/-- Claim C1: for registered button custom-id keys P1 and P2 with P1 a
strict prefix of P2, an incoming custom_id matching both resolves to the
handler registered under the longer key P2 — longest-prefix-match over the
button registry (P2 being the longer of the matching pair is expressed by
`hmax`: no registered matching key is longer than P2; registered keys are
distinct, as dictionary keys are). -/
theorem claim_C1_longest_wins {α : Type} (registry : List (String × α))
    (P1 P2 : String) (f1 f2 : α) (cid : String)
    (hnodup : (registry.map Prod.fst).Nodup)
    (h1 : (P1, f1) ∈ registry) (h2 : (P2, f2) ∈ registry)
    (hpre : listIsPre P1.data P2.data = true) (hne : P1 ≠ P2)
    (m1 : buttonMatches P1 cid = true) (m2 : buttonMatches P2 cid = true)
    (hmax : ∀ e ∈ registry, buttonMatches e.1 cid = true → e.1.length ≤ P2.length) :
    resolveButton registry cid = some (P2, f2) := by
  have hP2M : (P2, f2) ∈ registry.filter (fun e => buttonMatches e.1 cid) :=
    List.mem_filter.2 ⟨h2, m2⟩
  obtain ⟨e, he⟩ :
      ∃ e, pickLongest (registry.filter (fun e => buttonMatches e.1 cid)) = some e := by
    cases hp : pickLongest (registry.filter (fun e => buttonMatches e.1 cid)) with
    | none =>
      exfalso
      rw [pickLongest_eq_none_iff] at hp
      rw [hp] at hP2M
      simp at hP2M
    | some e => exact ⟨e, rfl⟩
  have heM := pickLongest_mem _ _ he
  have hereg : e ∈ registry := (List.mem_filter.1 heM).1
  have hematch : buttonMatches e.1 cid = true := by
    have := (List.mem_filter.1 heM).2
    simpa using this
  have hle : e.1.length ≤ P2.length := hmax e hereg hematch
  have hge : P2.length ≤ e.1.length := pickLongest_maxlen _ _ _ he hP2M
  have hkey : e.1 = P2 :=
    buttonMatches_eq_of_length_eq e.1 P2 cid hematch m2 (Nat.le_antisymm hle hge)
  have he2 : (P2, e.2) = e := by
    rw [← hkey]
  have hmem2 : (P2, e.2) ∈ registry := by
    rw [he2]
    exact hereg
  have hval : e.2 = f2 := key_nodup_eq registry hnodup P2 e.2 f2 hmem2 h2
  rw [resolveButton, he, ← he2, hval]

/-- Claim C1 witness: keys `"sell"` and `"sell:rare"`, custom_id
`"sell:rare:x"` matches both, the longer key's handler wins. -/
theorem claim_C1_longest_wins_witness :
    resolveButton [("sell", (1 : ℕ)), ("sell:rare", 2)] "sell:rare:x"
      = some ("sell:rare", 2) := by
  exact claim_C1_longest_wins [("sell", 1), ("sell:rare", 2)] "sell" "sell:rare" 1 2
    "sell:rare:x" (by decide) (by decide) (by decide) (by decide) (by decide)
    (by decide) (by decide) (by decide)

/-- Claim C4: the sell_one button handler invoked with custom_id
`"sell_one:Golden Carp"` splits on the first colon only, extracts
`"Golden Carp"`, adds exactly that fish's configured value (50 coins) to the
sender's balance, and increments the sender's `fishes_caught` by exactly 1 —
whatever the outcome of the best-effort prompt deletion. -/
theorem claim_C4_sell_one_golden_carp (db : DB) (sid : Int) (u : UserRow)
    (outcome : Except PlatformError Unit)
    (h : getUserRow db sid = some u) :
    splitOnceColon "sell_one:Golden Carp" = some ("sell_one", "Golden Carp")
    ∧ get_fish_value "Golden Carp" = 50
    ∧ on_sell_one_btn ⟨sid, some "sell_one:Golden Carp"⟩ db outcome
        = .ok (increment_fish (add_coins db 50 sid) sid,
            [⟨"💰 Sold **Golden Carp** for **50** coins!", true, some 3⟩])
    ∧ getUserRow (increment_fish (add_coins db 50 sid) sid) sid
        = some { u with coins := u.coins + 50, fishes_caught := u.fishes_caught + 1 } := by
  refine ⟨rfl, rfl, ?_, ?_⟩
  · cases outcome <;> rfl
  · have h1 := getUserRow_add_coins db sid 50 u h
    have h2 := getUserRow_increment_fish _ sid _ h1
    exact h2

/-- Claim C4 witness: a sender with 100 coins and 7 catches ends with 150
coins and 8 catches. -/
theorem claim_C4_sell_one_golden_carp_witness :
    splitOnceColon "sell_one:Golden Carp" = some ("sell_one", "Golden Carp")
    ∧ get_fish_value "Golden Carp" = 50
    ∧ on_sell_one_btn ⟨5, some "sell_one:Golden Carp"⟩ ⟨[⟨5, 100, 7⟩], []⟩ (.ok ())
        = .ok (increment_fish (add_coins ⟨[⟨5, 100, 7⟩], []⟩ 50 5) 5,
            [⟨"💰 Sold **Golden Carp** for **50** coins!", true, some 3⟩])
    ∧ getUserRow (increment_fish (add_coins ⟨[⟨5, 100, 7⟩], []⟩ 50 5) 5) 5
        = some ⟨5, 150, 8⟩ := by
  exact claim_C4_sell_one_golden_carp ⟨[⟨5, 100, 7⟩], []⟩ 5 ⟨5, 100, 7⟩ (.ok ()) rfl

/-- Claim C5: `transfer_coins` with sender balance 30 and requested amount 50
replies with the insufficient-funds message and performs zero database
writes — the returned state is exactly the incoming state, every row of
every table unchanged. -/
theorem claim_C5_transfer_insufficient (db : DB) (sid tid : Int) (tname : String)
    (u : UserRow) (h : getUserRow db sid = some u) (hcoins : u.coins = 30) :
    transfer_coins db sid tid tname 50
      = (db, [⟨"Not enough coins! You only have 30.", false, none⟩]) := by
  have hg : get_user db sid = (db, u) := by
    rw [get_user, h]
  simp only [transfer_coins, hg, hcoins]
  norm_num
  rfl

/-- Claim C5 witness: two seeded rows, sender holds 30, request of 50 is
refused and both rows survive unchanged. -/
theorem claim_C5_transfer_insufficient_witness :
    transfer_coins ⟨[⟨1, 30, 0⟩, ⟨2, 5, 0⟩], []⟩ 1 2 "Bob" 50
      = (⟨[⟨1, 30, 0⟩, ⟨2, 5, 0⟩], []⟩,
          [⟨"Not enough coins! You only have 30.", false, none⟩]) := by
  exact claim_C5_transfer_insufficient ⟨[⟨1, 30, 0⟩, ⟨2, 5, 0⟩], []⟩ 1 2 "Bob"
    ⟨1, 30, 0⟩ rfl rfl

/-- Claim C8: when the best-effort cleanup's platform delete call fails
(the message was already deleted by another path), the failure is caught and
ignored at the call site: the handler's result is the same as on a
successful delete, and the handler completes normally — no exception
propagates out of the deletion attempt. Stated for `on_sell_one_btn` on any
custom_id that reaches the deletion attempt. -/
theorem claim_C8_delete_suppressed (sid : Int) (cid : String) (db : DB)
    (e : PlatformError) (pr : String × String)
    (hsplit : splitOnceColon cid = some pr) :
    on_sell_one_btn ⟨sid, some cid⟩ db (.error e)
      = on_sell_one_btn ⟨sid, some cid⟩ db (.ok ())
    ∧ ∃ out, on_sell_one_btn ⟨sid, some cid⟩ db (.error e) = .ok out := by
  have hne : cid ≠ "" := by
    intro hc
    rw [hc] at hsplit
    simp [splitOnceColon, splitFirstAux] at hsplit
  obtain ⟨a, b⟩ := pr
  constructor
  · simp only [on_sell_one_btn, if_neg hne, hsplit, bestEffortDelete]
  · refine ⟨(increment_fish (add_coins db (get_fish_value b) sid) sid,
      [⟨"💰 Sold **" ++ b ++ "** for **" ++ toString (get_fish_value b) ++ "** coins!",
        true, some 3⟩]), ?_⟩
    simp only [on_sell_one_btn, if_neg hne, hsplit, bestEffortDelete]

/-- Claim C8 witness: the already-deleted-message failure leaves the
handler's outcome identical to the successful-delete run, and it is `.ok`. -/
theorem claim_C8_delete_suppressed_witness :
    on_sell_one_btn ⟨1, some "sell_one:Kraken"⟩ ⟨[⟨1, 0, 0⟩], []⟩ (.error .notFound)
      = on_sell_one_btn ⟨1, some "sell_one:Kraken"⟩ ⟨[⟨1, 0, 0⟩], []⟩ (.ok ())
    ∧ ∃ out, on_sell_one_btn ⟨1, some "sell_one:Kraken"⟩ ⟨[⟨1, 0, 0⟩], []⟩
        (.error .notFound) = .ok out := by
  exact claim_C8_delete_suppressed 1 "sell_one:Kraken" ⟨[⟨1, 0, 0⟩], []⟩ .notFound
    ("sell_one", "Kraken") rfl

/-- Claim C9: a fish name naming no `FISH_TYPES` entry is valued at 0 by
`get_fish_value`; consequently the sell_one button handler invoked with
custom_id `"sell_one:" ++ name` adds exactly 0 coins to the sender's balance
yet still increments the sender's `fishes_caught` by 1. -/
theorem claim_C9_unknown_fish (db : DB) (sid : Int) (u : UserRow) (name : String)
    (outcome : Except PlatformError Unit)
    (hname : ∀ f ∈ FISH_TYPES, f.name ≠ name)
    (h : getUserRow db sid = some u) :
    get_fish_value name = 0
    ∧ on_sell_one_btn ⟨sid, some ("sell_one:" ++ name)⟩ db outcome
        = .ok (increment_fish (add_coins db 0 sid) sid,
            [⟨"💰 Sold **" ++ name ++ "** for **" ++ "0" ++ "** coins!", true, some 3⟩])
    ∧ getUserRow (increment_fish (add_coins db 0 sid) sid) sid
        = some { u with fishes_caught := u.fishes_caught + 1 } := by
  have hval := get_fish_value_unknown name hname
  have hne : ("sell_one:" ++ name) ≠ "" := by
    intro hc
    have hd := congrArg String.data hc
    rw [String.data_append] at hd
    have hemp : ("" : String).data = [] := rfl
    rw [hemp] at hd
    have hsp := (List.append_eq_nil.1 hd).1
    exact absurd hsp (by decide)
  refine ⟨hval, ?_, ?_⟩
  · cases outcome with
    | ok uu =>
      simp only [on_sell_one_btn, if_neg hne, splitOnceColon_sell_one, hval,
        bestEffortDelete]
      rfl
    | error ee =>
      simp only [on_sell_one_btn, if_neg hne, splitOnceColon_sell_one, hval,
        bestEffortDelete]
      rfl
  · have h1 := getUserRow_add_coins db sid 0 u h
    have h2 := getUserRow_increment_fish _ sid _ h1
    simpa using h2

/-- Claim C9 witness: selling the unknown `"Mystery Eel"` pays nothing but
still counts one catch. -/
theorem claim_C9_unknown_fish_witness :
    get_fish_value "Mystery Eel" = 0
    ∧ on_sell_one_btn ⟨9, some "sell_one:Mystery Eel"⟩ ⟨[⟨9, 3, 4⟩], []⟩
        (.error .notFound)
        = .ok (⟨[⟨9, 3, 5⟩], []⟩,
            [⟨"💰 Sold **Mystery Eel** for **0** coins!", true, some 3⟩])
    ∧ getUserRow ⟨[⟨9, 3, 5⟩], []⟩ 9 = some ⟨9, 3, 5⟩ := by
  exact claim_C9_unknown_fish ⟨[⟨9, 3, 4⟩], []⟩ 9 ⟨9, 3, 4⟩ "Mystery Eel"
    (.error .notFound) (by decide) rfl

/-- Claim C10: for every `transfer_coins` invocation where the sender's user
row already exists and the requested amount is ≤ 0, the handler leaves every
row of every table unchanged and returns early through either the
insufficient-funds branch or the invalid-amount branch. -/
theorem claim_C10_transfer_nonpositive (db : DB) (sid tid : Int) (tname : String)
    (u : UserRow) (amount : Int)
    (h : getUserRow db sid = some u) (hamt : amount ≤ 0) :
    (transfer_coins db sid tid tname amount).1 = db
    ∧ ((transfer_coins db sid tid tname amount).2
        = [⟨"Not enough coins! You only have " ++ toString u.coins ++ ".", false, none⟩]
      ∨ (transfer_coins db sid tid tname amount).2
        = [⟨"Invalid amount.", false, none⟩]) := by
  have hg : get_user db sid = (db, u) := by
    rw [get_user, h]
  by_cases hc : u.coins < amount
  · refine ⟨?_, Or.inl ?_⟩
    · simp only [transfer_coins, hg, if_pos hc]
    · simp only [transfer_coins, hg, if_pos hc]
  · refine ⟨?_, Or.inr ?_⟩
    · simp only [transfer_coins, hg, if_neg hc, if_pos hamt]
    · simp only [transfer_coins, hg, if_neg hc, if_pos hamt]

/-- Claim C10 witness: amount 0 against an existing sender row is refused
via the invalid-amount branch with no write. -/
theorem claim_C10_transfer_nonpositive_witness :
    (transfer_coins ⟨[⟨1, 30, 0⟩], []⟩ 1 2 "Bob" 0).1 = ⟨[⟨1, 30, 0⟩], []⟩
    ∧ ((transfer_coins ⟨[⟨1, 30, 0⟩], []⟩ 1 2 "Bob" 0).2
        = [⟨"Not enough coins! You only have " ++ toString (30 : ℤ) ++ ".", false, none⟩]
      ∨ (transfer_coins ⟨[⟨1, 30, 0⟩], []⟩ 1 2 "Bob" 0).2
        = [⟨"Invalid amount.", false, none⟩]) := by
  exact claim_C10_transfer_nonpositive ⟨[⟨1, 30, 0⟩], []⟩ 1 2 "Bob" ⟨1, 30, 0⟩ 0
    rfl (le_refl 0)

end SPC
